import Mathlib

/-!
# TOTP-gated image upload (`main.go`)

A shallow embedding of the upload service: the secret store
(`SaveTOTPSecret`, `LoadTOTPSecret`, `InitializeTOTPSecret`), the verifier
(`ValidateTOTP`) and the request handler (`uploadFileHandler`).

The two entry points `main.go` and `src/main.go` share these functions word
for word; they differ in the constant `TOTP_SECRET_FILE` (taken as a
parameter below) and in the landing page / CORS wrapper, which do not touch
the request form.

Conventions.
* A Go `string` and a Go `[]byte` are byte sequences; both are embedded as a
  Lean `String` read as a sequence of symbols, so the conversions
  `[]byte(s)` and `string(b)` are the identity. The separator `/` and the dot
  `.` are single bytes, so scanning symbols is scanning bytes.
* Library code (`net/http`, `mime/multipart`, `os`, `path/filepath`) is
  embedded at the level the handler observes it. Cryptography, content
  sniffing and random identifiers are parameters collected in `Env`.
* Paths follow the Unix rules (`/` is the only separator, no volume names).
* Storage is fault free: an `os` call fails only for a reason visible in the
  file tree (missing file, a file where a directory is needed, ...).
-/

namespace ImageUploader

/-! ## Constants -/

/-- Source: `MAX_UPLOAD_SIZE = 10 * 1024 * 1024`. -/
def MAX_UPLOAD_SIZE : Nat := 10 * 1024 * 1024

/-- Source: `UPLOAD_DIR = "uploads"`. -/
def UPLOAD_DIR : String := "uploads"

/-- Secret path of the entry point `main.go`. -/
def TOTP_SECRET_FILE_main : String := "totp_secret.txt"

/-- Secret path of the entry point `src/main.go`. -/
def TOTP_SECRET_FILE_src : String := "secrets/totp_secret"

/-- Value of `http.StatusOK`. -/
def http.StatusOK : Nat := 200
/-- Value of `http.StatusBadRequest`. -/
def http.StatusBadRequest : Nat := 400
/-- Value of `http.StatusUnauthorized`. -/
def http.StatusUnauthorized : Nat := 401
/-- Value of `http.StatusRequestEntityTooLarge` (never used by the source). -/
def http.StatusRequestEntityTooLarge : Nat := 413
/-- Value of `http.StatusInternalServerError`. -/
def http.StatusInternalServerError : Nat := 500

/-- The constant `defaultMaxMemory` of `net/http` (32 MiB). -/
def http.defaultMaxMemory : Nat := 32 * 1024 * 1024

/-- A Go byte slice. -/
abbrev Bytes := String

/-- Source: `type UploadResponse struct`. -/
structure UploadResponse where
  Filename : String
  Message : String
deriving DecidableEq, Repr

/-! ## `path/filepath` -/

/-- The loop of `filepath.Ext`: `i` runs from `len(path) - 1` down to `0` and
stops at a separator; the argument is `i + 1`. -/
def filepath.ExtLoop (path : List Char) : Nat → List Char
  | 0 => []
  | i + 1 =>
    if path.getD i ' ' = '/' then []
    else if path.getD i ' ' = '.' then path.drop i
    else filepath.ExtLoop path i

/-- The function `filepath.Ext`: the suffix beginning at the final dot in the
final element of `path`; empty if there is no dot. -/
def filepath.Ext (path : String) : String :=
  ⟨filepath.ExtLoop path.data path.length⟩

/-- The backtracking of `filepath.Clean` at a `..` element: after `out.w--`,
`for out.w > dotdot && !IsPathSeparator(out.index(out.w)) { out.w-- }`.
The argument and the result are the write index `out.w`. -/
def filepath.cleanBacktrack (out : List Char) (dotdot : Nat) : Nat → Nat
  | 0 => 0
  | w + 1 =>
    if dotdot < w + 1 ∧ out.getD (w + 1) ' ' ≠ '/' then
      filepath.cleanBacktrack out dotdot w
    else w + 1

/-- The main loop of `filepath.Clean`. The second argument is the unread part
`path[r:]`, `out` is the buffer `out[:out.w]`; the first argument bounds the
number of iterations (each iteration reads at least one byte). -/
def filepath.cleanLoop (rooted : Bool) :
    Nat → List Char → List Char → Nat → List Char
  | 0, _, out, _ => out
  | _ + 1, [], out, _ => out
  | fuel + 1, c :: rest, out, dotdot =>
    if c = '/' then
      -- empty path element
      filepath.cleanLoop rooted fuel rest out dotdot
    else if c = '.' ∧ (rest = [] ∨ rest.head? = some '/') then
      -- . element
      filepath.cleanLoop rooted fuel rest out dotdot
    else if c = '.' ∧ rest.head? = some '.' ∧
        (rest.tail = [] ∨ rest.tail.head? = some '/') then
      -- .. element: remove to last separator
      if dotdot < out.length then
        filepath.cleanLoop rooted fuel rest.tail
          (out.take (filepath.cleanBacktrack out dotdot (out.length - 1))) dotdot
      else if rooted = false then
        let out1 := if 0 < out.length then out ++ ['/'] else out
        let out2 := out1 ++ ['.', '.']
        filepath.cleanLoop rooted fuel rest.tail out2 out2.length
      else
        filepath.cleanLoop rooted fuel rest.tail out dotdot
    else
      -- real path element: add slash if needed, copy element
      let out1 :=
        if (rooted = true ∧ out.length ≠ 1) ∨ (rooted = false ∧ out.length ≠ 0)
        then out ++ ['/'] else out
      filepath.cleanLoop rooted fuel ((c :: rest).dropWhile (· ≠ '/'))
        (out1 ++ (c :: rest).takeWhile (· ≠ '/')) dotdot

/-- The function `filepath.Clean` (Unix). -/
def filepath.Clean (path : String) : String :=
  match path.data with
  | [] => "."
  | c :: rest =>
    let rooted : Bool := c = '/'
    let out :=
      if rooted then
        filepath.cleanLoop rooted (path.length + 1) rest ['/'] 1
      else
        filepath.cleanLoop rooted (path.length + 1) (c :: rest) [] 0
    if out = [] then "." else ⟨out⟩

/-- The function `filepath.Join`: the elements from the first non-empty one
on, joined by the separator and cleaned. -/
def filepath.Join : List String → String
  | [] => ""
  | e :: rest =>
    if e ≠ "" then filepath.Clean (String.intercalate "/" (e :: rest))
    else filepath.Join rest

/-- The final element of a path: what follows the last separator. -/
def filepath.lastElem (path : String) : List Char :=
  (path.data.reverse.takeWhile (· ≠ '/')).reverse

/-- The suffix of a list of symbols from its last dot on (empty without a
dot). -/
def filepath.fromLastDot : List Char → List Char
  | [] => []
  | c :: rest =>
    if '.' ∈ rest then filepath.fromLastDot rest
    else if c = '.' then c :: rest
    else []

/-- The scan of `filepath.ExtLoop` read off the reversed part of the path that
is still to be visited; `acc` is the part already passed. -/
def filepath.extScan : List Char → List Char → List Char
  | [], _ => []
  | c :: rs, acc =>
    if c = '/' then [] else if c = '.' then c :: acc else filepath.extScan rs (c :: acc)

/-- Whether two consecutive dots occur. -/
def hasDotDot : List Char → Bool
  | a :: b :: rest => (a = '.' ∧ b = '.') || hasDotDot (b :: rest)
  | _ => false

/-! ## `github.com/google/uuid` -/

/-- A lower-case hexadecimal digit. -/
def uuid.isHex (c : Char) : Bool :=
  ('0' ≤ c ∧ c ≤ '9') ∨ ('a' ≤ c ∧ c ≤ 'f')

/-- The text form `UUID.String()` produces,
`xxxxxxxx-xxxx-xxxx-xxxx-xxxxxxxxxxxx`: 36 symbols, hyphens at the offsets
8, 13, 18 and 23, hexadecimal digits or hyphens throughout. -/
def uuid.WellFormed (u : String) : Bool :=
  u.data.length = 36 ∧ u.data.all (fun c => uuid.isHex c || c = '-') ∧
    u.data.getD 8 ' ' = '-' ∧ u.data.getD 13 ' ' = '-' ∧
    u.data.getD 18 ' ' = '-' ∧ u.data.getD 23 ' ' = '-'

/-! ## `mime/multipart` and `net/http` -/

/-- The type `url.Values`: keys with their values, in order; the value list
of a key is the sublist of its pairs. -/
abbrev Values := List (String × String)

/-- A file part of a multipart form (`multipart.FileHeader`) with what the
handler can observe of it: the declared filename, the bytes of the part,
whether `Open` fails and whether reading the opened part fails. -/
structure multipart.FileHeader where
  Filename : String
  content : Bytes
  openErr : Bool
  readErr : Bool
deriving DecidableEq, Repr

/-- A decoded multipart form (`multipart.Form`). -/
structure multipart.Form where
  Value : Values
  File : List (String × multipart.FileHeader)
deriving DecidableEq, Repr

/-- A request body as a stream: `size` bytes are still unread, `content` is
what `multipart.Reader.ReadForm` decodes when it reads them to the end
(`none`: it reports an error: not `multipart/form-data`, malformed, too many
non-file bytes, or nothing left), and `limit` is the allowance left by
`http.MaxBytesReader` (`none`: the body is not wrapped). A read, failed or
not, is taken to leave nothing that decodes. -/
structure http.Body where
  size : Nat
  content : Option multipart.Form
  limit : Option Nat
deriving DecidableEq, Repr

/-- The fields of `http.Request` the handler touches. `query` holds the
values `ParseForm` collects (the URL query string), `formErr` whether
`ParseForm` reports an error on them; `Form` and `MultipartForm` are the
parsed forms, `none` for Go's `nil`. -/
structure http.Request where
  query : Values
  formErr : Bool
  Body : http.Body
  Form : Option Values
  MultipartForm : Option multipart.Form
deriving DecidableEq, Repr

/-- A request as the server hands it to a handler: nothing parsed, body
unread and unwrapped. -/
def http.Request.incoming (query : Values) (size : Nat)
    (content : Option multipart.Form) : http.Request :=
  { query := query, formErr := false,
    Body := { size := size, content := content, limit := none },
    Form := none, MultipartForm := none }

/-- The function `http.MaxBytesReader(w, r, n)`: reads past `n` bytes fail. -/
def http.MaxBytesReader (b : http.Body) (n : Nat) : http.Body :=
  { b with limit := some (match b.limit with
                          | none => n
                          | some m => min m n) }

/-- Reading a form off the body (`multipartReader` followed by `ReadForm`).
Under a limit smaller than what is left the read fails once the allowance is
used up; otherwise the stream is drained and its decoding returned. -/
def http.Body.readForm (b : http.Body) : Option multipart.Form × http.Body :=
  match b.limit with
  | some n =>
    if n < b.size then
      (none, { size := b.size - n, content := none, limit := some 0 })
    else
      (b.content, { size := 0, content := none, limit := some (n - b.size) })
  | none => (b.content, { size := 0, content := none, limit := none })

/-- The method `(*Request).ParseForm`: fills `r.Form` once. -/
def http.Request.ParseForm (r : http.Request) : Bool × http.Request :=
  match r.Form with
  | none => (r.formErr, { r with Form := some r.query })
  | some _ => (false, r)

/-- The method `(*Request).ParseMultipartForm`; the first component is
`err != nil`. An already parsed `r.MultipartForm` makes it return `nil` at
once, without reading the body. `maxMemory` only bounds what is kept in
memory rather than in temporary files. -/
def http.Request.ParseMultipartForm (r : http.Request) (_maxMemory : Nat) :
    Bool × http.Request :=
  let p := if r.Form = none then r.ParseForm else (false, r)
  let parseFormErr := p.1
  let r := p.2
  if r.MultipartForm ≠ none then (false, r)
  else
    let rd := r.Body.readForm
    match rd.1 with
    | none => (true, { r with Body := rd.2 })
    | some f =>
      (parseFormErr,
        { r with Body := rd.2,
                 Form := some (r.Form.getD [] ++ f.Value),
                 MultipartForm := some f })

/-- The method `(*Request).FormValue`: parses if `r.Form` is `nil`, ignoring
errors, and returns the first value of `key`, or `""`. -/
def http.Request.FormValue (r : http.Request) (key : String) :
    String × http.Request :=
  let r := if r.Form = none then (r.ParseMultipartForm http.defaultMaxMemory).2 else r
  (((r.Form.getD []).lookup key).getD "", r)

/-- The method `(*Request).FormFile`: the first file part under `key`;
`none` stands for a non-nil error. -/
def http.Request.FormFile (r : http.Request) (key : String) :
    Option multipart.FileHeader × http.Request :=
  let p := if r.MultipartForm = none then r.ParseMultipartForm http.defaultMaxMemory
           else (false, r)
  if p.1 then (none, p.2)
  else
    match p.2.MultipartForm with
    | none => (none, p.2)
    | some f =>
      match f.File.lookup key with
      | none => (none, p.2)
      | some fh => if fh.openErr then (none, p.2) else (some fh, p.2)

/-- A response under construction (`http.ResponseWriter`): the header map,
the status line once written, and the JSON documents encoded to the body. -/
structure http.ResponseWriter where
  header : List (String × String)
  status : Option Nat
  body : List UploadResponse
deriving DecidableEq, Repr

/-- The writer a handler receives: nothing written yet; `header` holds what
a wrapper (the CORS layer of `src/main.go`) may have set. -/
def http.ResponseWriter.fresh (header : List (String × String)) :
    http.ResponseWriter :=
  { header := header, status := none, body := [] }

/-- The method `WriteHeader(code)`: the first call fixes the status. -/
def http.ResponseWriter.WriteHeader (w : http.ResponseWriter) (code : Nat) :
    http.ResponseWriter :=
  match w.status with
  | none => { w with status := some code }
  | some _ => w

/-- The call `w.Header().Set(key, value)`. -/
def http.ResponseWriter.HeaderSet (w : http.ResponseWriter) (key value : String) :
    http.ResponseWriter :=
  { w with header := (key, value) :: w.header.filter (fun kv => kv.1 ≠ key) }

/-- The call `json.NewEncoder(w).Encode(v)`: a write, which sends status 200
first if no status was written. -/
def http.ResponseWriter.Encode (w : http.ResponseWriter) (v : UploadResponse) :
    http.ResponseWriter :=
  let w := w.WriteHeader http.StatusOK
  { w with body := w.body ++ [v] }

/-! ## `os` -/

/-- An entry of the file tree. -/
inductive os.Node where
  | file (data : Bytes)
  | dir
deriving DecidableEq, Repr

/-- The file tree: names with their entries, the first pair of a name
counts. Names are used as written, relative to the working directory. -/
structure os.FS where
  nodes : List (String × os.Node)
deriving DecidableEq, Repr

/-- The entry under a name. -/
def os.FS.lookup (fs : os.FS) (name : String) : Option os.Node :=
  fs.nodes.lookup name

/-- The tree with `name` bound to `n`. -/
def os.FS.insert (fs : os.FS) (name : String) (n : os.Node) : os.FS :=
  ⟨(name, n) :: fs.nodes⟩

/-- The directory part of a name: what precedes its last separator; `none`
for a name without separator, which lives in the working directory. -/
def os.parent (name : String) : Option String :=
  if '/' ∈ name.data then
    some ⟨(name.data.reverse.dropWhile (· ≠ '/')).reverse.dropLast⟩
  else none

/-- Whether the directory part of a name is a directory (the working
directory and the root are). -/
def os.FS.parentIsDir (fs : os.FS) (name : String) : Bool :=
  match os.parent name with
  | none => true
  | some d => d = "" ∨ fs.lookup d = some .dir

/-- Whether the directory part of a name is a regular file. -/
def os.FS.parentIsFile (fs : os.FS) (name : String) : Bool :=
  match os.parent name with
  | none => false
  | some d =>
    match fs.lookup d with
    | some (.file _) => true
    | _ => false

/-- The error kinds `os.Stat` can report here. -/
inductive os.Errno where
  | ENOENT
  | ENOTDIR
deriving DecidableEq, Repr

/-- The error of `os.Stat(name)`; `none` is `nil`. -/
def os.Stat (fs : os.FS) (name : String) : Option os.Errno :=
  match fs.lookup name with
  | some _ => none
  | none => if fs.parentIsFile name then some .ENOTDIR else some .ENOENT

/-- The function `os.IsNotExist`. -/
def os.IsNotExist (err : Option os.Errno) : Bool :=
  err = some .ENOENT

/-- The function `os.ReadFile`; `none` is an error. -/
def os.ReadFile (fs : os.FS) (name : String) : Option Bytes :=
  match fs.lookup name with
  | some (.file data) => some data
  | _ => none

/-- The function `os.WriteFile`: creates or truncates the file and writes
`data`; `none` is an error, which leaves the tree as it was. -/
def os.WriteFile (fs : os.FS) (name : String) (data : Bytes) : Option os.FS :=
  if name = "" then none
  else
    match fs.lookup name with
    | some .dir => none
    | _ => if fs.parentIsDir name then some (fs.insert name (.file data)) else none

/-- The function `os.Mkdir`; `none` is an error. -/
def os.Mkdir (fs : os.FS) (name : String) : Option os.FS :=
  if name = "" ∨ (fs.lookup name).isSome ∨ fs.parentIsDir name = false then none
  else some (fs.insert name .dir)

/-- The recursion of `os.MkdirAll`: succeed on a directory, fail on a file,
otherwise make the parent, then the directory. The first argument bounds the
depth of the recursion. -/
def os.MkdirAllAux : Nat → os.FS → String → Option os.FS
  | 0, _, _ => none
  | fuel + 1, fs, path =>
    match fs.lookup path with
    | some .dir => some fs
    | some (.file _) => none
    | none =>
      match os.parent path with
      | none => os.Mkdir fs path
      | some d =>
        if d = "" then os.Mkdir fs path
        else
          match os.MkdirAllAux fuel fs d with
          | none => none
          | some fs1 => os.Mkdir fs1 path

/-- The function `os.MkdirAll`; `none` is an error. -/
def os.MkdirAll (fs : os.FS) (path : String) : Option os.FS :=
  os.MkdirAllAux (path.length + 1) fs path

/-! ## The environment and the program -/

/-- What the program takes from outside: the TOTP library at the time of the
call, content sniffing and the random identifier. -/
structure Env where
  /-- The call `totp.Validate(passcode, secret)`. -/
  Validate : String → String → Bool
  /-- The secret of the key made by `totp.Generate`, `none` for an error. -/
  Generate : Option String
  /-- The function `http.DetectContentType`. -/
  DetectContentType : Bytes → String
  /-- The value of `uuid.New().String()`. -/
  uuidNew : String

/-- The library calls the program makes, as recorded in its trace. -/
inductive Call where
  | Stat (name : String)
  | Generate
  | ReadFile (name : String)
  | Println (line : String)
  | Validate (passcode secret : String)
  | DetectContentType (data : Bytes)
  | uuidNew
  | MkdirAll (path : String)
  | WriteFile (name : String) (data : Bytes)
deriving DecidableEq, Repr

/-- Whether a call writes a file. -/
def Call.isWriteFile : Call → Bool
  | .WriteFile _ _ => true
  | _ => false

/-- Whether a call changes the file tree. -/
def Call.isFsEffect : Call → Bool
  | .WriteFile _ _ => true
  | .MkdirAll _ => true
  | _ => false

/-- Whether a call is the cryptographic check. -/
def Call.isValidate : Call → Bool
  | .Validate _ _ => true
  | _ => false

/-- The process: the global `totpSecret` and the file tree. -/
structure Process where
  totpSecret : String
  fs : os.FS
deriving DecidableEq, Repr

/-- Source: `SaveTOTPSecret`; `none` is a non-nil error. -/
def SaveTOTPSecret (TOTP_SECRET_FILE : String) (fs : os.FS) (secret : String) :
    Option os.FS :=
  os.WriteFile fs TOTP_SECRET_FILE secret

/-- Source: `LoadTOTPSecret`; `none` is a non-nil error. -/
def LoadTOTPSecret (TOTP_SECRET_FILE : String) (fs : os.FS) : Option String :=
  match os.ReadFile fs TOTP_SECRET_FILE with
  | none => none
  | some data => some data

/-- Source: `InitializeTOTPSecret`. The result is the process after the call,
or the message of `log.Fatal`, together with the trace of library calls. -/
def InitializeTOTPSecret (env : Env) (TOTP_SECRET_FILE : String) (p : Process) :
    Except String Process × List Call :=
  if os.IsNotExist (os.Stat p.fs TOTP_SECRET_FILE) then
    match env.Generate with
    | none =>
      (.error "Failed to generate TOTP secret key",
        [.Stat TOTP_SECRET_FILE, .Generate])
    | some secret =>
      match SaveTOTPSecret TOTP_SECRET_FILE p.fs secret with
      | none =>
        (.error "Failed to save TOTP secret to file",
          [.Stat TOTP_SECRET_FILE, .Generate, .WriteFile TOTP_SECRET_FILE secret])
      | some fs =>
        (.ok { totpSecret := secret, fs := fs },
          [.Stat TOTP_SECRET_FILE, .Generate, .WriteFile TOTP_SECRET_FILE secret,
           .Println "Generated and saved new TOTP secret."])
  else
    -- File exists, load the TOTP secret from the file
    match LoadTOTPSecret TOTP_SECRET_FILE p.fs with
    | none =>
      (.error "Failed to load TOTP secret from file",
        [.Stat TOTP_SECRET_FILE, .ReadFile TOTP_SECRET_FILE])
    | some secret =>
      (.ok { p with totpSecret := secret },
        [.Stat TOTP_SECRET_FILE, .ReadFile TOTP_SECRET_FILE,
         .Println "Loaded TOTP secret from file."])

/-- Source: `ValidateTOTP`. -/
def ValidateTOTP (env : Env) (totpSecret : String) (token : String) : Bool :=
  env.Validate token totpSecret

/-- What a run of the handler leaves: the response, the file tree and the
trace of library calls, in order. -/
structure Outcome where
  w : http.ResponseWriter
  fs : os.FS
  calls : List Call
deriving DecidableEq, Repr

/-- The error replies of the handler: `w.WriteHeader(code)` followed by
`json.NewEncoder(w).Encode(UploadResponse{Message: message})`. -/
def writeError (w : http.ResponseWriter) (code : Nat) (message : String) :
    http.ResponseWriter :=
  (w.WriteHeader code).Encode { Filename := "", Message := message }

/-- Source: `uploadFileHandler`. -/
def uploadFileHandler (env : Env) (totpSecret : String) (w : http.ResponseWriter)
    (r : http.Request) (fs : os.FS) : Outcome :=
  let fv := r.FormValue "totp_token"
  let totpToken := fv.1
  let r := fv.2
  -- `totpToken == "" || !ValidateTOTP(totpToken)`: the right operand is only
  -- evaluated for a token that is not empty
  if totpToken = "" then
    ⟨writeError w http.StatusUnauthorized "Invalid or missing TOTP token", fs, []⟩
  else if ValidateTOTP env totpSecret totpToken = false then
    ⟨writeError w http.StatusUnauthorized "Invalid or missing TOTP token", fs,
      [.Validate totpToken totpSecret]⟩
  else
    let r := { r with Body := http.MaxBytesReader r.Body MAX_UPLOAD_SIZE }
    let pm := r.ParseMultipartForm MAX_UPLOAD_SIZE
    let r := pm.2
    if pm.1 then
      ⟨writeError w http.StatusBadRequest "The uploaded file is too big.", fs,
        [.Validate totpToken totpSecret]⟩
    else
      match (r.FormFile "image").1 with
      | none =>
        ⟨writeError w http.StatusBadRequest "Unable to retrieve file from form data.",
          fs, [.Validate totpToken totpSecret]⟩
      | some handler =>
        if handler.readErr then
          ⟨writeError w http.StatusInternalServerError "Unable to read file.", fs,
            [.Validate totpToken totpSecret]⟩
        else
          let fileBytes := handler.content
          let fileType := env.DetectContentType fileBytes
          if fileType ≠ "image/jpeg" ∧ fileType ≠ "image/png" ∧ fileType ≠ "image/gif" then
            ⟨writeError w http.StatusBadRequest
                "File format is not supported. Only JPEG, PNG, and GIF images are allowed.",
              fs, [.Validate totpToken totpSecret, .DetectContentType fileBytes]⟩
          else
            let randomFileName := env.uuidNew
            let fileExtension := filepath.Ext handler.Filename
            if fileExtension = "" then
              ⟨writeError w http.StatusBadRequest "File does not have a valid extension.",
                fs, [.Validate totpToken totpSecret, .DetectContentType fileBytes, .uuidNew]⟩
            else
              match os.MkdirAll fs UPLOAD_DIR with
              | none =>
                ⟨writeError w http.StatusInternalServerError
                    "Unable to create upload directory.",
                  fs, [.Validate totpToken totpSecret, .DetectContentType fileBytes,
                       .uuidNew, .MkdirAll UPLOAD_DIR]⟩
              | some fs1 =>
                let newFileName := randomFileName ++ fileExtension
                let newFilePath := filepath.Join [UPLOAD_DIR, newFileName]
                match os.WriteFile fs1 newFilePath fileBytes with
                | none =>
                  ⟨writeError w http.StatusInternalServerError "Unable to save the file.",
                    fs1, [.Validate totpToken totpSecret, .DetectContentType fileBytes,
                          .uuidNew, .MkdirAll UPLOAD_DIR,
                          .WriteFile newFilePath fileBytes]⟩
                | some fs2 =>
                  ⟨(w.HeaderSet "Content-Type" "application/json").Encode
                      { Filename := newFileName, Message := "File uploaded successfully" },
                    fs2, [.Validate totpToken totpSecret, .DetectContentType fileBytes,
                          .uuidNew, .MkdirAll UPLOAD_DIR,
                          .WriteFile newFilePath fileBytes]⟩

/-! ## What the handler observes of a request -/

/-- The token the handler reads: `r.FormValue("totp_token")`. -/
def handlerToken (r : http.Request) : String :=
  (r.FormValue "totp_token").1

/-- The request as the handler goes on with it past the token gate: the form
value was read and the body is wrapped by `http.MaxBytesReader`. -/
def gatedRequest (r : http.Request) : http.Request :=
  { (r.FormValue "totp_token").2 with
    Body := http.MaxBytesReader (r.FormValue "totp_token").2.Body MAX_UPLOAD_SIZE }

/-- Whether the handler's `r.ParseMultipartForm(MAX_UPLOAD_SIZE)` reports an
error. -/
def handlerParseErr (r : http.Request) : Bool :=
  ((gatedRequest r).ParseMultipartForm MAX_UPLOAD_SIZE).1

/-- The part the handler gets from `r.FormFile("image")`, `none` for an
error. -/
def handlerFile (r : http.Request) : Option multipart.FileHeader :=
  ((((gatedRequest r).ParseMultipartForm MAX_UPLOAD_SIZE).2).FormFile "image").1

/-- The allow-list of sniffed types. -/
def allowedType (fileType : String) : Bool :=
  fileType = "image/jpeg" ∨ fileType = "image/png" ∨ fileType = "image/gif"

/-! ## Fixtures: a concrete environment, requests and file trees -/

/-- A base32 secret. -/
def demoSecret : String := "JBSWY3DPEHPK3PXP"

/-- An environment in which `123456` is the current code of `demoSecret`,
sniffing knows the PNG and PDF signatures, and the next identifier is fixed. -/
def demoEnv : Env where
  Validate := fun passcode secret => passcode = "123456" ∧ secret = demoSecret
  Generate := some demoSecret
  DetectContentType := fun data =>
    if data.data.take 8 = "\x89PNG\r\n\x1a\n".data then "image/png"
    else if data.data.take 5 = "%PDF-".data then "application/pdf"
    else "application/octet-stream"
  uuidNew := "123e4567-e89b-42d3-a456-426614174000"

/-- The first bytes of a PNG file. -/
def pngBytes : Bytes := "\x89PNG\r\n\x1a\n\x00\x00\x00\rIHDR"

/-- The first bytes of a PDF file. -/
def pdfBytes : Bytes := "%PDF-1.4"

/-- A form with the token field and one file under `image`. -/
def demoForm (token filename : String) (data : Bytes) : multipart.Form :=
  { Value := [("totp_token", token)],
    File := [("image", { Filename := filename, content := data,
                         openErr := false, readErr := false })] }

/-- An incoming multipart request of `size` bytes carrying `demoForm`. -/
def demoRequest (size : Nat) (token filename : String) (data : Bytes) : http.Request :=
  http.Request.incoming [] size (some (demoForm token filename data))

/-- A file tree with the upload directory. -/
def demoFS : os.FS := ⟨[("uploads", .dir)]⟩

/-! ## Lemmas on `path/filepath` -/

theorem filepath.ExtLoop_eq_extScan (l : List Char) :
    ∀ k, k ≤ l.length →
      filepath.ExtLoop l k = filepath.extScan (l.take k).reverse (l.drop k) := by
  intro k
  induction k with
  | zero => intro _; simp [filepath.ExtLoop, filepath.extScan]
  | succ k ih =>
    intro hk
    have hk' : k < l.length := hk
    have hget : l.getD k ' ' = l[k] := by
      simp [List.getD, List.getElem?_eq_getElem hk']
    have htake : (l.take (k + 1)).reverse = l[k] :: (l.take k).reverse := by
      rw [List.take_succ, List.getElem?_eq_getElem hk']
      simp
    have hdrop : l.drop k = l[k] :: l.drop (k + 1) := by
      simp
    rw [filepath.ExtLoop, htake, filepath.extScan, hget, ih (Nat.le_of_lt hk'), ← hdrop]

theorem filepath.extScan_shape (rs : List Char) :
    ∀ acc, filepath.extScan rs acc = [] ∨
      ∃ pre, filepath.extScan rs acc = '.' :: (pre ++ acc) ∧
        ∀ c ∈ pre, c ≠ '.' ∧ c ≠ '/' := by
  induction rs with
  | nil => intro acc; simp [filepath.extScan]
  | cons c rs ih =>
    intro acc
    by_cases h1 : c = '/'
    · simp [filepath.extScan, h1]
    · by_cases h2 : c = '.'
      · right
        refine ⟨[], ?_, ?_⟩
        · simp [filepath.extScan, h2]
        · simp
      · rcases ih (c :: acc) with h | ⟨pre, hpre, hall⟩
        · left; simp [filepath.extScan, h1, h2, h]
        · right
          refine ⟨pre ++ [c], ?_, ?_⟩
          · simp [filepath.extScan, h1, h2, hpre]
          · intro d hd
            rcases List.mem_append.mp hd with hd | hd
            · exact hall d hd
            · simp at hd; subst hd; exact ⟨h2, h1⟩

theorem filepath.extScan_eq_nil_iff (rs : List Char) :
    ∀ acc, filepath.extScan rs acc = [] ↔ '.' ∉ rs.takeWhile (· ≠ '/') := by
  induction rs with
  | nil => intro acc; simp [filepath.extScan]
  | cons c rs ih =>
    intro acc
    by_cases h1 : c = '/'
    · simp [filepath.extScan, h1]
    · by_cases h2 : c = '.'
      · simp [filepath.extScan, h2]
      · have h2' : ¬ '.' = c := fun h => h2 h.symm
        simp [filepath.extScan, h1, h2, h2', List.takeWhile_cons, ih (c :: acc)]

theorem filepath.fromLastDot_append_dot (xs acc : List Char) (h : '.' ∉ acc) :
    filepath.fromLastDot (xs ++ '.' :: acc) = '.' :: acc := by
  induction xs with
  | nil => simp [filepath.fromLastDot, h]
  | cons x xs ih => simp [filepath.fromLastDot, ih]

theorem filepath.extScan_eq_fromLastDot (rs : List Char) :
    ∀ acc, '.' ∉ acc → '.' ∈ rs.takeWhile (· ≠ '/') →
      filepath.extScan rs acc =
        filepath.fromLastDot ((rs.takeWhile (· ≠ '/')).reverse ++ acc) := by
  induction rs with
  | nil => intro acc _ h; simp at h
  | cons c rs ih =>
    intro acc hacc hmem
    by_cases h1 : c = '/'
    · simp [h1] at hmem
    · by_cases h2 : c = '.'
      · subst h2
        simp [filepath.extScan, List.takeWhile_cons,
          filepath.fromLastDot_append_dot _ _ hacc]
      · have h2' : ¬ '.' = c := fun h => h2 h.symm
        have hmem' : '.' ∈ rs.takeWhile (· ≠ '/') := by
          simpa [List.takeWhile_cons, h1, h2'] using hmem
        have hacc' : '.' ∉ c :: acc := by simp [h2', hacc]
        simp [filepath.extScan, h1, h2, List.takeWhile_cons, ih (c :: acc) hacc' hmem']

theorem filepath.Ext_data (path : String) :
    (filepath.Ext path).data = filepath.extScan path.data.reverse [] := by
  have h := filepath.ExtLoop_eq_extScan path.data path.data.length (Nat.le_refl _)
  have hl : path.length = path.data.length := rfl
  show filepath.ExtLoop path.data path.length = _
  rw [hl, h, List.take_length, List.drop_length]

theorem filepath.Ext_shape (path : String) :
    filepath.Ext path = "" ∨
      ∃ t, (filepath.Ext path).data = '.' :: t ∧ ∀ c ∈ t, c ≠ '.' ∧ c ≠ '/' := by
  rcases filepath.extScan_shape path.data.reverse [] with h | ⟨pre, hpre, hall⟩
  · left
    apply String.ext
    rw [filepath.Ext_data, h]
  · right
    refine ⟨pre, ?_, hall⟩
    rw [filepath.Ext_data, hpre]
    simp

theorem filepath.Ext_eq_empty_iff (path : String) :
    filepath.Ext path = "" ↔ '.' ∉ filepath.lastElem path := by
  rw [String.ext_iff, filepath.Ext_data]
  have h := filepath.extScan_eq_nil_iff path.data.reverse []
  simpa [filepath.lastElem] using h

theorem filepath.Ext_of_dot (path : String) (h : '.' ∈ filepath.lastElem path) :
    filepath.Ext path = ⟨filepath.fromLastDot (filepath.lastElem path)⟩ := by
  apply String.ext
  rw [filepath.Ext_data]
  have h' : '.' ∈ path.data.reverse.takeWhile (· ≠ '/') := by
    simpa [filepath.lastElem] using h
  have := filepath.extScan_eq_fromLastDot path.data.reverse [] (by simp) h'
  simpa [filepath.lastElem] using this

theorem uuid.WellFormed_chars (u : String) (h : uuid.WellFormed u = true) :
    ∃ c t, u.data = c :: t ∧ ∀ d ∈ c :: t, d ≠ '.' ∧ d ≠ '/' := by
  simp only [uuid.WellFormed, decide_eq_true_eq, List.all_eq_true] at h
  obtain ⟨hlen, hall, -⟩ := h
  cases hu : u.data with
  | nil => rw [hu] at hlen; simp at hlen
  | cons c t =>
    refine ⟨c, t, rfl, ?_⟩
    intro d hd
    have hd' := hall d (hu ▸ hd)
    constructor
    · rintro rfl; revert hd'; decide
    · rintro rfl; revert hd'; decide

theorem filepath.Join_uploads (name : String) (c : Char) (t : List Char)
    (hname : name.data = c :: t) (hc : c ≠ '.' ∧ c ≠ '/') (ht : ∀ d ∈ t, d ≠ '/') :
    filepath.Join [UPLOAD_DIR, name] = UPLOAD_DIR ++ "/" ++ name := by
  have hi : String.intercalate "/" [UPLOAD_DIR, name] = UPLOAD_DIR ++ "/" ++ name := by
    simp [String.intercalate, String.intercalate.go]
  have hne : UPLOAD_DIR ≠ "" := by decide
  have hdata : (UPLOAD_DIR ++ "/" ++ name).data =
      'u' :: 'p' :: 'l' :: 'o' :: 'a' :: 'd' :: 's' :: '/' :: c :: t := by
    simp [UPLOAD_DIR, hname]
  have hlen : (UPLOAD_DIR ++ "/" ++ name).length = t.length + 9 := by
    show (UPLOAD_DIR ++ "/" ++ name).data.length = _
    rw [hdata]; simp
  have htw : List.takeWhile (fun x => !decide (x = '/')) t = t := by
    rw [List.takeWhile_eq_self_iff]
    intro d hd; simpa using ht d hd
  have hdw : List.dropWhile (fun x => !decide (x = '/')) t = [] := by
    rw [List.dropWhile_eq_nil_iff]
    intro d hd; simpa using ht d hd
  rw [filepath.Join, if_pos hne, hi]
  unfold filepath.Clean
  rw [hdata, hlen]
  simp [filepath.cleanLoop, hc.1, hc.2, htw, hdw]
  apply String.ext
  rw [hdata]

/-! ## The branches of the handler -/

/-- The handler in terms of what it observes of the request. -/
theorem uploadFileHandler_eq (env : Env) (totpSecret : String) (w : http.ResponseWriter)
    (r : http.Request) (fs : os.FS) :
    uploadFileHandler env totpSecret w r fs =
      if handlerToken r = "" then
        ⟨writeError w 401 "Invalid or missing TOTP token", fs, []⟩
      else if ValidateTOTP env totpSecret (handlerToken r) = false then
        ⟨writeError w 401 "Invalid or missing TOTP token", fs,
          [.Validate (handlerToken r) totpSecret]⟩
      else if handlerParseErr r then
        ⟨writeError w 400 "The uploaded file is too big.", fs,
          [.Validate (handlerToken r) totpSecret]⟩
      else
        match handlerFile r with
        | none =>
          ⟨writeError w 400 "Unable to retrieve file from form data.", fs,
            [.Validate (handlerToken r) totpSecret]⟩
        | some fh =>
          if fh.readErr then
            ⟨writeError w 500 "Unable to read file.", fs,
              [.Validate (handlerToken r) totpSecret]⟩
          else if allowedType (env.DetectContentType fh.content) = false then
            ⟨writeError w 400
                "File format is not supported. Only JPEG, PNG, and GIF images are allowed.",
              fs, [.Validate (handlerToken r) totpSecret, .DetectContentType fh.content]⟩
          else if filepath.Ext fh.Filename = "" then
            ⟨writeError w 400 "File does not have a valid extension.", fs,
              [.Validate (handlerToken r) totpSecret, .DetectContentType fh.content,
               .uuidNew]⟩
          else
            match os.MkdirAll fs UPLOAD_DIR with
            | none =>
              ⟨writeError w 500 "Unable to create upload directory.", fs,
                [.Validate (handlerToken r) totpSecret, .DetectContentType fh.content,
                 .uuidNew, .MkdirAll UPLOAD_DIR]⟩
            | some fs1 =>
              match os.WriteFile fs1
                  (filepath.Join [UPLOAD_DIR, env.uuidNew ++ filepath.Ext fh.Filename])
                  fh.content with
              | none =>
                ⟨writeError w 500 "Unable to save the file.", fs1,
                  [.Validate (handlerToken r) totpSecret, .DetectContentType fh.content,
                   .uuidNew, .MkdirAll UPLOAD_DIR,
                   .WriteFile
                     (filepath.Join [UPLOAD_DIR, env.uuidNew ++ filepath.Ext fh.Filename])
                     fh.content]⟩
              | some fs2 =>
                ⟨(w.HeaderSet "Content-Type" "application/json").Encode
                    { Filename := env.uuidNew ++ filepath.Ext fh.Filename,
                      Message := "File uploaded successfully" },
                  fs2,
                  [.Validate (handlerToken r) totpSecret, .DetectContentType fh.content,
                   .uuidNew, .MkdirAll UPLOAD_DIR,
                   .WriteFile
                     (filepath.Join [UPLOAD_DIR, env.uuidNew ++ filepath.Ext fh.Filename])
                     fh.content]⟩ := by
  unfold uploadFileHandler handlerToken handlerParseErr handlerFile gatedRequest
  simp only []
  split
  · rfl
  split
  · rfl
  split
  · rfl
  split
  · rfl
  · have hallow : ∀ s : String,
        (s ≠ "image/jpeg" ∧ s ≠ "image/png" ∧ s ≠ "image/gif") ↔
          allowedType s = false := by
      intro s
      simp only [allowedType, decide_eq_false_iff_not]
      tauto
    simp only [hallow]
    rfl

theorem writeError_fresh_status (header : List (String × String)) (code : Nat)
    (message : String) :
    (writeError (.fresh header) code message).status = some code := rfl

theorem writeError_fresh_body (header : List (String × String)) (code : Nat)
    (message : String) :
    (writeError (.fresh header) code message).body =
      [{ Filename := "", Message := message }] := rfl

theorem os.WriteFile_lookup (fs fs' : os.FS) (name : String) (data : Bytes)
    (h : os.WriteFile fs name data = some fs') :
    fs'.lookup name = some (.file data) := by
  unfold os.WriteFile at h
  split at h
  · exact absurd h (by simp)
  · split at h
    · exact absurd h (by simp)
    · split at h
      · have h' : fs.insert name (.file data) = fs' := by simpa using h
        subst h'
        simp [os.FS.insert, os.FS.lookup, List.lookup]
      · exact absurd h (by simp)

theorem hasDotDot_of_no_dot (l : List Char) (h : ∀ c ∈ l, c ≠ '.') :
    hasDotDot l = false := by
  induction l with
  | nil => rfl
  | cons a l ih =>
    cases l with
    | nil => rfl
    | cons b l =>
      have ha : a ≠ '.' := h a (by simp)
      have := ih (fun c hc => h c (List.mem_cons_of_mem _ hc))
      simp [hasDotDot, ha, this]

theorem hasDotDot_append_dot (xs t : List Char) (hx : ∀ c ∈ xs, c ≠ '.')
    (hne : xs ≠ []) (ht : ∀ c ∈ t, c ≠ '.') :
    hasDotDot (xs ++ '.' :: t) = false := by
  induction xs with
  | nil => exact absurd rfl hne
  | cons a xs ih =>
    have ha : a ≠ '.' := hx a (by simp)
    cases xs with
    | nil =>
      cases t with
      | nil => simp [hasDotDot, ha]
      | cons b t =>
        have hb : b ≠ '.' := ht b (by simp)
        have := hasDotDot_of_no_dot (b :: t) ht
        simp [hasDotDot, ha, hb] at this ⊢
        cases t with
        | nil => simp [hasDotDot]
        | cons c t => simpa [hasDotDot, hb] using this
    | cons b xs =>
      have := ih (fun c hc => hx c (List.mem_cons_of_mem _ hc)) (by simp)
      simpa [hasDotDot, ha] using this

/-- The storage name: the identifier followed by a dotted extension, one
path element without `..`. -/
theorem storageName_shape (u f : String) (hu : uuid.WellFormed u = true)
    (he : filepath.Ext f ≠ "") :
    ∃ c t tail, (u ++ filepath.Ext f).data = c :: t ∧ c ≠ '.' ∧ c ≠ '/' ∧
      (∀ d ∈ t, d ≠ '/') ∧ (filepath.Ext f).data = '.' :: tail ∧
      (∀ d ∈ tail, d ≠ '.' ∧ d ≠ '/') ∧ hasDotDot (u ++ filepath.Ext f).data = false := by
  obtain ⟨c, t, hdata, hall⟩ := uuid.WellFormed_chars u hu
  rcases filepath.Ext_shape f with h | ⟨tail, htail, htl⟩
  · exact absurd h he
  · refine ⟨c, t ++ '.' :: tail, tail, ?_, (hall c (by simp)).1, (hall c (by simp)).2,
      ?_, htail, htl, ?_⟩
    · simp [hdata, htail]
    · intro d hd
      rcases List.mem_append.mp hd with hd | hd
      · exact (hall d (List.mem_cons_of_mem _ hd)).2
      · rcases List.mem_cons.mp hd with hd | hd
        · subst hd; decide
        · exact (htl d hd).2
    · rw [String.data_append, htail, hdata]
      exact hasDotDot_append_dot (c :: t) tail (fun d hd => (hall d hd).1) (by simp)
        (fun d hd => (htl d hd).1)

theorem storagePath_eq (u f : String) (hu : uuid.WellFormed u = true)
    (he : filepath.Ext f ≠ "") :
    filepath.Join [UPLOAD_DIR, u ++ filepath.Ext f] =
      UPLOAD_DIR ++ "/" ++ (u ++ filepath.Ext f) := by
  obtain ⟨c, t, _, hdata, hc1, hc2, ht, _⟩ := storageName_shape u f hu he
  exact filepath.Join_uploads _ c t hdata ⟨hc1, hc2⟩ ht

/-- The handler's `os.MkdirAll(UPLOAD_DIR)` never runs out of recursion depth:
it fails exactly when a regular file sits at `uploads`. -/
theorem os.MkdirAll_uploads (fs : os.FS) :
    os.MkdirAll fs UPLOAD_DIR =
      match fs.lookup UPLOAD_DIR with
      | some .dir => some fs
      | some (.file _) => none
      | none => some (fs.insert UPLOAD_DIR .dir) := by
  have hp : os.parent UPLOAD_DIR = none := by decide
  have hl : UPLOAD_DIR.length + 1 = 7 + 1 := by decide
  have hne : UPLOAD_DIR ≠ "" := by decide
  unfold os.MkdirAll
  rw [hl, os.MkdirAllAux]
  cases h : fs.lookup UPLOAD_DIR with
  | none => simp [hp, os.Mkdir, h, os.FS.parentIsDir, hne]
  | some n => cases n <;> simp

theorem success_fresh_status (header : List (String × String)) (key value : String)
    (v : UploadResponse) :
    (((http.ResponseWriter.fresh header).HeaderSet key value).Encode v).status =
      some 200 := rfl

theorem success_fresh_body (header : List (String × String)) (key value : String)
    (v : UploadResponse) :
    (((http.ResponseWriter.fresh header).HeaderSet key value).Encode v).body = [v] := rfl

/-! ## The claims -/

/-- C1: when the token read from the form is empty, or `ValidateTOTP` rejects
it, the handler answers 401 with the body
`{filename: "", message: "Invalid or missing TOTP token"}` and stops: the
file tree is untouched, the trace holds at most the validation call, so no
directory is created and no file written, whatever else the request holds. -/
theorem C1_unauthorized (env : Env) (totpSecret : String)
    (header : List (String × String)) (r : http.Request) (fs : os.FS)
    (h : handlerToken r = "" ∨ ValidateTOTP env totpSecret (handlerToken r) = false) :
    (uploadFileHandler env totpSecret (.fresh header) r fs).w.status = some 401 ∧
    (uploadFileHandler env totpSecret (.fresh header) r fs).w.body =
      [{ Filename := "", Message := "Invalid or missing TOTP token" }] ∧
    (uploadFileHandler env totpSecret (.fresh header) r fs).fs = fs ∧
    (∀ c ∈ (uploadFileHandler env totpSecret (.fresh header) r fs).calls,
      c = .Validate (handlerToken r) totpSecret) ∧
    (∀ c ∈ (uploadFileHandler env totpSecret (.fresh header) r fs).calls,
      c.isFsEffect = false) := by
  rw [uploadFileHandler_eq]
  by_cases h0 : handlerToken r = ""
  · simp [h0, writeError_fresh_status, writeError_fresh_body]
  · have hv : ValidateTOTP env totpSecret (handlerToken r) = false := by
      rcases h with h | h
      · exact absurd h h0
      · exact h
    simp [h0, hv, writeError_fresh_status, writeError_fresh_body, Call.isFsEffect]

/-- C1 at an empty token and at a wrong token, each with a PNG part. -/
theorem C1_unauthorized_witness :
    (handlerToken (demoRequest 51200 "" "photo.png" pngBytes) = "" ∨
      ValidateTOTP demoEnv demoSecret
        (handlerToken (demoRequest 51200 "" "photo.png" pngBytes)) = false) ∧
    (uploadFileHandler demoEnv demoSecret (.fresh [])
        (demoRequest 51200 "" "photo.png" pngBytes) demoFS).w =
      { header := [], status := some 401,
        body := [{ Filename := "", Message := "Invalid or missing TOTP token" }] } ∧
    (uploadFileHandler demoEnv demoSecret (.fresh [])
        (demoRequest 51200 "" "photo.png" pngBytes) demoFS).fs = demoFS :=
  ⟨by decide, by decide,
    (C1_unauthorized demoEnv demoSecret [] (demoRequest 51200 "" "photo.png" pngBytes)
      demoFS (by decide)).2.2.1⟩

/-- C2: a request with a valid token whose multipart form parsed and holds an
`image` part with bytes `b` and filename `f`, where `b` sniffs as JPEG, PNG
or GIF, `filepath.Ext f` is not empty, and the directory and the file can be
written, is answered 200 with `{filename: u ++ Ext f, message: "File uploaded
successfully"}`, `u` the generated identifier; the one file written is
`uploads/(u ++ Ext f)` and it holds exactly `b`. -/
theorem C2_upload_success (env : Env) (totpSecret : String)
    (header : List (String × String)) (r : http.Request) (fs fs1 fs2 : os.FS)
    (f : String) (b : Bytes)
    (htok : handlerToken r ≠ "")
    (hval : ValidateTOTP env totpSecret (handlerToken r) = true)
    (hparse : handlerParseErr r = false)
    (hfile : handlerFile r =
      some { Filename := f, content := b, openErr := false, readErr := false })
    (htype : env.DetectContentType b = "image/jpeg" ∨
      env.DetectContentType b = "image/png" ∨ env.DetectContentType b = "image/gif")
    (hext : filepath.Ext f ≠ "")
    (huuid : uuid.WellFormed env.uuidNew = true)
    (hmk : os.MkdirAll fs UPLOAD_DIR = some fs1)
    (hwr : os.WriteFile fs1 ("uploads/" ++ (env.uuidNew ++ filepath.Ext f)) b = some fs2) :
    (uploadFileHandler env totpSecret (.fresh header) r fs).w.status = some 200 ∧
    (uploadFileHandler env totpSecret (.fresh header) r fs).w.body =
      [{ Filename := env.uuidNew ++ filepath.Ext f,
         Message := "File uploaded successfully" }] ∧
    (uploadFileHandler env totpSecret (.fresh header) r fs).calls.filter Call.isWriteFile =
      [.WriteFile ("uploads/" ++ (env.uuidNew ++ filepath.Ext f)) b] ∧
    (uploadFileHandler env totpSecret (.fresh header) r fs).fs = fs2 ∧
    fs2.lookup ("uploads/" ++ (env.uuidNew ++ filepath.Ext f)) = some (.file b) := by
  have hpath : filepath.Join [UPLOAD_DIR, env.uuidNew ++ filepath.Ext f] =
      "uploads/" ++ (env.uuidNew ++ filepath.Ext f) :=
    storagePath_eq env.uuidNew f huuid hext
  have hallow : allowedType (env.DetectContentType b) = true := by
    simp only [allowedType, decide_eq_true_eq]
    exact htype
  have hlook := os.WriteFile_lookup fs1 fs2 _ b hwr
  rw [uploadFileHandler_eq]
  simp only [htok, hval, hparse, hfile, hallow, hext, hmk, hpath, hwr, if_false,
    Bool.false_eq_true, Bool.true_eq_false]
  refine ⟨rfl, rfl, ?_, trivial, hlook⟩
  simp [Call.isWriteFile]

/-- C2 at a 50 KB request with the current code and `photo.png`. -/
theorem C2_upload_success_witness :
    uuid.WellFormed demoEnv.uuidNew = true ∧
    os.MkdirAll demoFS UPLOAD_DIR = some demoFS ∧
    (uploadFileHandler demoEnv demoSecret (.fresh [])
        (demoRequest 51200 "123456" "photo.png" pngBytes) demoFS).w.status = some 200 ∧
    (uploadFileHandler demoEnv demoSecret (.fresh [])
        (demoRequest 51200 "123456" "photo.png" pngBytes) demoFS).w.body =
      [{ Filename := "123e4567-e89b-42d3-a456-426614174000.png",
         Message := "File uploaded successfully" }] ∧
    (uploadFileHandler demoEnv demoSecret (.fresh [])
        (demoRequest 51200 "123456" "photo.png" pngBytes) demoFS).calls.filter
        Call.isWriteFile =
      [.WriteFile "uploads/123e4567-e89b-42d3-a456-426614174000.png" pngBytes] ∧
    (uploadFileHandler demoEnv demoSecret (.fresh [])
        (demoRequest 51200 "123456" "photo.png" pngBytes) demoFS).fs =
      demoFS.insert "uploads/123e4567-e89b-42d3-a456-426614174000.png" (.file pngBytes) ∧
    (demoFS.insert "uploads/123e4567-e89b-42d3-a456-426614174000.png"
        (.file pngBytes)).lookup "uploads/123e4567-e89b-42d3-a456-426614174000.png" =
      some (.file pngBytes) :=
  ⟨by decide, by decide,
    C2_upload_success demoEnv demoSecret [] (demoRequest 51200 "123456" "photo.png" pngBytes)
      demoFS demoFS
      (demoFS.insert "uploads/123e4567-e89b-42d3-a456-426614174000.png" (.file pngBytes))
      "photo.png" pngBytes (by decide) (by decide) (by decide) (by decide)
      (Or.inr (Or.inl (by decide))) (by decide) (by decide) (by decide) (by decide)⟩

/-- C3: past the token gate, with an `image` part whose bytes `b` sniff as a
type outside `image/jpeg`, `image/png`, `image/gif`, the handler answers 400
with the unsupported-format message and writes nothing; the outcome is fixed
by the token and the bytes alone, so a second request `r2` that differs in
the declared filename (`f2` instead of `f`) gets the very same outcome. -/
theorem C3_unsupported_type (env : Env) (totpSecret : String)
    (header : List (String × String)) (r r2 : http.Request) (fs : os.FS)
    (f f2 : String) (b : Bytes)
    (htok : handlerToken r ≠ "")
    (hval : ValidateTOTP env totpSecret (handlerToken r) = true)
    (hparse : handlerParseErr r = false)
    (hfile : handlerFile r =
      some { Filename := f, content := b, openErr := false, readErr := false })
    (htok2 : handlerToken r2 = handlerToken r)
    (hparse2 : handlerParseErr r2 = false)
    (hfile2 : handlerFile r2 =
      some { Filename := f2, content := b, openErr := false, readErr := false })
    (htype : env.DetectContentType b ≠ "image/jpeg" ∧
      env.DetectContentType b ≠ "image/png" ∧ env.DetectContentType b ≠ "image/gif") :
    (uploadFileHandler env totpSecret (.fresh header) r fs).w.status = some 400 ∧
    (uploadFileHandler env totpSecret (.fresh header) r fs).w.body =
      [{ Filename := "",
         Message :=
          "File format is not supported. Only JPEG, PNG, and GIF images are allowed." }] ∧
    (uploadFileHandler env totpSecret (.fresh header) r fs).fs = fs ∧
    (∀ c ∈ (uploadFileHandler env totpSecret (.fresh header) r fs).calls,
      c.isFsEffect = false) ∧
    uploadFileHandler env totpSecret (.fresh header) r2 fs =
      uploadFileHandler env totpSecret (.fresh header) r fs := by
  have hallow : allowedType (env.DetectContentType b) = false := by
    simp only [allowedType, decide_eq_false_iff_not]
    tauto
  have htok2' : handlerToken r2 ≠ "" := by rw [htok2]; exact htok
  have hval2 : ValidateTOTP env totpSecret (handlerToken r2) = true := by
    rw [htok2]; exact hval
  rw [uploadFileHandler_eq, uploadFileHandler_eq]
  simp only [htok, hval, hparse, hfile, htok2', hval2, hparse2, hfile2, hallow, if_false,
    if_true, Bool.false_eq_true, Bool.true_eq_false]
  refine ⟨rfl, rfl, trivial, ?_, ?_⟩
  · simp [Call.isFsEffect]
  · rw [htok2]

/-- C3 at a PDF payload declared once as `photo.png` and once as `photo`. -/
theorem C3_unsupported_type_witness :
    (demoEnv.DetectContentType pdfBytes ≠ "image/jpeg" ∧
      demoEnv.DetectContentType pdfBytes ≠ "image/png" ∧
      demoEnv.DetectContentType pdfBytes ≠ "image/gif") ∧
    (uploadFileHandler demoEnv demoSecret (.fresh [])
        (demoRequest 2048 "123456" "photo.png" pdfBytes) demoFS).w.status = some 400 ∧
    (uploadFileHandler demoEnv demoSecret (.fresh [])
        (demoRequest 2048 "123456" "photo.png" pdfBytes) demoFS).fs = demoFS ∧
    uploadFileHandler demoEnv demoSecret (.fresh [])
        (demoRequest 2048 "123456" "photo" pdfBytes) demoFS =
      uploadFileHandler demoEnv demoSecret (.fresh [])
        (demoRequest 2048 "123456" "photo.png" pdfBytes) demoFS :=
  have h := C3_unsupported_type demoEnv demoSecret []
    (demoRequest 2048 "123456" "photo.png" pdfBytes)
    (demoRequest 2048 "123456" "photo" pdfBytes) demoFS "photo.png" "photo" pdfBytes
    (by decide) (by decide) (by decide) (by decide) (by decide) (by decide) (by decide)
    (by decide)
  ⟨by decide, h.1, h.2.2.1, h.2.2.2.2⟩

/-- C10: past the token gate, with an `image` part of an allowed sniffed
type: `filepath.Ext` of the filename is empty exactly when the final path
element has no dot; then the handler answers 400 with "File does not have a
valid extension.", leaves the file tree as it was and reports no filename
(no extension is made up from the sniffed type). When the final element has
a dot, the extension is the suffix from its last dot, the check passes (the
handler goes on to create the directory) and a success reports the
identifier followed by that suffix. -/
theorem C10_extension_check (env : Env) (totpSecret : String)
    (header : List (String × String)) (r : http.Request) (fs : os.FS)
    (f : String) (b : Bytes)
    (htok : handlerToken r ≠ "")
    (hval : ValidateTOTP env totpSecret (handlerToken r) = true)
    (hparse : handlerParseErr r = false)
    (hfile : handlerFile r =
      some { Filename := f, content := b, openErr := false, readErr := false })
    (htype : allowedType (env.DetectContentType b) = true) :
    (filepath.Ext f = "" ↔ '.' ∉ filepath.lastElem f) ∧
    ('.' ∉ filepath.lastElem f →
      (uploadFileHandler env totpSecret (.fresh header) r fs).w.status = some 400 ∧
      (uploadFileHandler env totpSecret (.fresh header) r fs).w.body =
        [{ Filename := "", Message := "File does not have a valid extension." }] ∧
      (uploadFileHandler env totpSecret (.fresh header) r fs).fs = fs ∧
      ∀ c ∈ (uploadFileHandler env totpSecret (.fresh header) r fs).calls,
        c.isFsEffect = false) ∧
    ('.' ∈ filepath.lastElem f →
      filepath.Ext f = ⟨filepath.fromLastDot (filepath.lastElem f)⟩ ∧
      filepath.Ext f ≠ "" ∧
      Call.MkdirAll UPLOAD_DIR ∈
        (uploadFileHandler env totpSecret (.fresh header) r fs).calls ∧
      ((uploadFileHandler env totpSecret (.fresh header) r fs).w.status = some 200 →
        (uploadFileHandler env totpSecret (.fresh header) r fs).w.body =
          [{ Filename := env.uuidNew ++ ⟨filepath.fromLastDot (filepath.lastElem f)⟩,
             Message := "File uploaded successfully" }])) := by
  refine ⟨filepath.Ext_eq_empty_iff f, ?_, ?_⟩
  · intro hdot
    have hext : filepath.Ext f = "" := (filepath.Ext_eq_empty_iff f).mpr hdot
    rw [uploadFileHandler_eq]
    simp only [htok, hval, hparse, hfile, htype, hext, if_false, if_true,
      Bool.false_eq_true, Bool.true_eq_false]
    refine ⟨rfl, rfl, trivial, ?_⟩
    simp [Call.isFsEffect]
  · intro hdot
    have hext : filepath.Ext f ≠ "" := fun h => (filepath.Ext_eq_empty_iff f).mp h hdot
    have heq := filepath.Ext_of_dot f hdot
    refine ⟨heq, hext, ?_, ?_⟩
    · rw [uploadFileHandler_eq]
      simp only [htok, hval, hparse, hfile, htype, hext, if_false,
        Bool.false_eq_true, Bool.true_eq_false]
      cases os.MkdirAll fs UPLOAD_DIR with
      | none => simp
      | some fs1 =>
        simp only []
        split <;> simp
    · rw [uploadFileHandler_eq]
      simp only [htok, hval, hparse, hfile, htype, hext, if_false,
        Bool.false_eq_true, Bool.true_eq_false]
      cases os.MkdirAll fs UPLOAD_DIR with
      | none =>
        intro h
        have h' : some 500 = some 200 := h
        exact absurd h' (by decide)
      | some fs1 =>
        simp only []
        split
        · intro h
          have h' : some 500 = some 200 := h
          exact absurd h' (by decide)
        · intro _; rw [← heq]; rfl

/-- C10 at a PNG payload named `photo` (rejected) and, as a second use, named
`archive.tar.png` (the extension is `.png`). -/
theorem C10_extension_check_witness :
    allowedType (demoEnv.DetectContentType pngBytes) = true ∧
    '.' ∉ filepath.lastElem "photo" ∧
    ((uploadFileHandler demoEnv demoSecret (.fresh [])
        (demoRequest 2048 "123456" "photo" pngBytes) demoFS).w.status = some 400 ∧
      (uploadFileHandler demoEnv demoSecret (.fresh [])
        (demoRequest 2048 "123456" "photo" pngBytes) demoFS).w.body =
        [{ Filename := "", Message := "File does not have a valid extension." }] ∧
      (uploadFileHandler demoEnv demoSecret (.fresh [])
        (demoRequest 2048 "123456" "photo" pngBytes) demoFS).fs = demoFS ∧
      ∀ c ∈ (uploadFileHandler demoEnv demoSecret (.fresh [])
        (demoRequest 2048 "123456" "photo" pngBytes) demoFS).calls,
        c.isFsEffect = false) ∧
    '.' ∈ filepath.lastElem "a.b/archive.tar.png" ∧
    filepath.Ext "a.b/archive.tar.png" = ".png" :=
  ⟨by decide, by decide,
    (C10_extension_check demoEnv demoSecret [] (demoRequest 2048 "123456" "photo" pngBytes)
      demoFS "photo" pngBytes (by decide) (by decide) (by decide) (by decide)
      (by decide)).2.1 (by decide),
    by decide,
    ((C10_extension_check demoEnv demoSecret []
      (demoRequest 2048 "123456" "a.b/archive.tar.png" pngBytes)
      demoFS "a.b/archive.tar.png" pngBytes (by decide) (by decide) (by decide) (by decide)
      (by decide)).2.2 (by decide)).1⟩

/-- C7: a file write appears in the trace of the handler only if every
validation passed: the token is not empty and valid, the form parsed, the
`image` part was obtained and read, its sniffed type is allowed, the
extension is not empty and the directory was ensured. And whenever the
answer is 401 or 400 the trace has no file write and the file tree is as it
was. -/
theorem C7_write_only_when_valid (env : Env) (totpSecret : String)
    (header : List (String × String)) (r : http.Request) (fs : os.FS) :
    ((∃ c ∈ (uploadFileHandler env totpSecret (.fresh header) r fs).calls,
        c.isWriteFile = true) →
      handlerToken r ≠ "" ∧ ValidateTOTP env totpSecret (handlerToken r) = true ∧
      handlerParseErr r = false ∧
      ∃ fh, handlerFile r = some fh ∧ fh.readErr = false ∧
        allowedType (env.DetectContentType fh.content) = true ∧
        filepath.Ext fh.Filename ≠ "" ∧ (os.MkdirAll fs UPLOAD_DIR).isSome = true) ∧
    (((uploadFileHandler env totpSecret (.fresh header) r fs).w.status = some 401 ∨
        (uploadFileHandler env totpSecret (.fresh header) r fs).w.status = some 400) →
      (∀ c ∈ (uploadFileHandler env totpSecret (.fresh header) r fs).calls,
        c.isWriteFile = false) ∧
      (uploadFileHandler env totpSecret (.fresh header) r fs).fs = fs) := by
  rw [uploadFileHandler_eq]
  split
  · simp [writeError_fresh_status]
  split
  · simp [writeError_fresh_status, Call.isWriteFile]
  split
  · simp [writeError_fresh_status, Call.isWriteFile]
  split
  · simp [writeError_fresh_status, Call.isWriteFile]
  split
  · simp [writeError_fresh_status, Call.isWriteFile]
  split
  · simp [writeError_fresh_status, Call.isWriteFile]
  split
  · simp [writeError_fresh_status, Call.isWriteFile]
  split
  · simp [writeError_fresh_status, Call.isWriteFile]
  split
  · simp_all [writeError_fresh_status, Call.isWriteFile]
  · simp_all [Call.isWriteFile, success_fresh_status]

/-- C7 at the accepted PNG upload: the trace has a file write, so every
validation passed. -/
theorem C7_write_only_when_valid_witness :
    (∃ c ∈ (uploadFileHandler demoEnv demoSecret (.fresh [])
        (demoRequest 51200 "123456" "photo.png" pngBytes) demoFS).calls,
        c.isWriteFile = true) ∧
    handlerToken (demoRequest 51200 "123456" "photo.png" pngBytes) ≠ "" ∧
    handlerParseErr (demoRequest 51200 "123456" "photo.png" pngBytes) = false :=
  have h := (C7_write_only_when_valid demoEnv demoSecret []
    (demoRequest 51200 "123456" "photo.png" pngBytes) demoFS).1 (by decide)
  ⟨by decide, h.1, h.2.2.1⟩

/-- C6 fails on the code: a request whose form cannot be parsed takes the
branch that reports "The uploaded file is too big." and that branch sends
400, not 413. The request carries the current code in the query string and a
body, one byte over the cap, that does not decode. -/
theorem C6_too_big_is_400 :
    (uploadFileHandler demoEnv demoSecret (.fresh [])
        (http.Request.incoming [("totp_token", "123456")] (MAX_UPLOAD_SIZE + 1) none)
        demoFS).w.body =
      [{ Filename := "", Message := "The uploaded file is too big." }] ∧
    (uploadFileHandler demoEnv demoSecret (.fresh [])
        (http.Request.incoming [("totp_token", "123456")] (MAX_UPLOAD_SIZE + 1) none)
        demoFS).w.status = some 400 ∧
    (uploadFileHandler demoEnv demoSecret (.fresh [])
        (http.Request.incoming [("totp_token", "123456")] (MAX_UPLOAD_SIZE + 1) none)
        demoFS).w.status ≠ some http.StatusRequestEntityTooLarge := by
  decide

/-- C6, amended: the status follows the first step that fails. 401 for an
empty or rejected token; 400 when `ParseMultipartForm` reports an error (the
branch with "The uploaded file is too big."; 413 is never sent); 400 when
`FormFile` reports an error, when the sniffed type is not allowed and when
the extension is empty; 500 when reading the part, creating the directory or
writing the file fails; 200 with the generated filename otherwise. -/
theorem C6_status_by_step (env : Env) (totpSecret : String)
    (header : List (String × String)) (r : http.Request) (fs : os.FS) :
    ((handlerToken r = "" ∨ ValidateTOTP env totpSecret (handlerToken r) = false) →
      (uploadFileHandler env totpSecret (.fresh header) r fs).w.status = some 401) ∧
    (handlerToken r ≠ "" → ValidateTOTP env totpSecret (handlerToken r) = true →
      (handlerParseErr r = true →
        (uploadFileHandler env totpSecret (.fresh header) r fs).w.status = some 400 ∧
        (uploadFileHandler env totpSecret (.fresh header) r fs).w.body =
          [{ Filename := "", Message := "The uploaded file is too big." }]) ∧
      (handlerParseErr r = false →
        (handlerFile r = none →
          (uploadFileHandler env totpSecret (.fresh header) r fs).w.status = some 400) ∧
        (∀ fh, handlerFile r = some fh →
          (fh.readErr = true →
            (uploadFileHandler env totpSecret (.fresh header) r fs).w.status = some 500) ∧
          (fh.readErr = false →
            (allowedType (env.DetectContentType fh.content) = false →
              (uploadFileHandler env totpSecret (.fresh header) r fs).w.status =
                some 400) ∧
            (allowedType (env.DetectContentType fh.content) = true →
              (filepath.Ext fh.Filename = "" →
                (uploadFileHandler env totpSecret (.fresh header) r fs).w.status =
                  some 400) ∧
              (filepath.Ext fh.Filename ≠ "" →
                (os.MkdirAll fs UPLOAD_DIR = none →
                  (uploadFileHandler env totpSecret (.fresh header) r fs).w.status =
                    some 500) ∧
                (∀ fs1, os.MkdirAll fs UPLOAD_DIR = some fs1 →
                  (os.WriteFile fs1
                      (filepath.Join [UPLOAD_DIR, env.uuidNew ++ filepath.Ext fh.Filename])
                      fh.content = none →
                    (uploadFileHandler env totpSecret (.fresh header) r fs).w.status =
                      some 500) ∧
                  (∀ fs2, os.WriteFile fs1
                      (filepath.Join [UPLOAD_DIR, env.uuidNew ++ filepath.Ext fh.Filename])
                      fh.content = some fs2 →
                    (uploadFileHandler env totpSecret (.fresh header) r fs).w.status =
                      some 200 ∧
                    (uploadFileHandler env totpSecret (.fresh header) r fs).w.body =
                      [{ Filename := env.uuidNew ++ filepath.Ext fh.Filename,
                         Message := "File uploaded successfully" }])))))))) ∧
    (uploadFileHandler env totpSecret (.fresh header) r fs).w.status ≠ some 413 := by
  rw [uploadFileHandler_eq]
  refine ⟨?_, ?_, ?_⟩
  · intro h
    by_cases h0 : handlerToken r = ""
    · simp [h0, writeError_fresh_status]
    · have hv : ValidateTOTP env totpSecret (handlerToken r) = false := by
        rcases h with h | h
        · exact absurd h h0
        · exact h
      simp [h0, hv, writeError_fresh_status]
  · intro h0 hv
    refine ⟨?_, ?_⟩
    · intro hp
      simp [h0, hv, hp, writeError_fresh_status, writeError_fresh_body]
    · intro hp
      refine ⟨?_, ?_⟩
      · intro hf
        simp [h0, hv, hp, hf, writeError_fresh_status]
      · intro fh hf
        refine ⟨?_, ?_⟩
        · intro hr
          simp [h0, hv, hp, hf, hr, writeError_fresh_status]
        · intro hr
          refine ⟨?_, ?_⟩
          · intro ha
            simp [h0, hv, hp, hf, hr, ha, writeError_fresh_status]
          · intro ha
            refine ⟨?_, ?_⟩
            · intro he
              simp [h0, hv, hp, hf, hr, ha, he, writeError_fresh_status]
            · intro he
              refine ⟨?_, ?_⟩
              · intro hm
                simp [h0, hv, hp, hf, hr, ha, he, hm, writeError_fresh_status]
              · intro fs1 hm
                refine ⟨?_, ?_⟩
                · intro hw
                  simp [h0, hv, hp, hf, hr, ha, he, hm, hw, writeError_fresh_status]
                · intro fs2 hw
                  simp [h0, hv, hp, hf, hr, ha, he, hm, hw, success_fresh_status,
                    success_fresh_body]
  · split
    · simp [writeError_fresh_status]
    split
    · simp [writeError_fresh_status]
    split
    · simp [writeError_fresh_status]
    split
    · simp [writeError_fresh_status]
    split
    · simp [writeError_fresh_status]
    split
    · simp [writeError_fresh_status]
    split
    · simp [writeError_fresh_status]
    split
    · simp [writeError_fresh_status]
    split
    · simp [writeError_fresh_status]
    · simp [success_fresh_status]

/-- C6, amended, where a regular file sits at `uploads`: creating the
directory fails and the answer is 500. -/
theorem C6_status_by_step_witness :
    os.MkdirAll ⟨[("uploads", .file "x")]⟩ UPLOAD_DIR = none ∧
    (uploadFileHandler demoEnv demoSecret (.fresh [])
        (demoRequest 2048 "123456" "photo.png" pngBytes)
        ⟨[("uploads", .file "x")]⟩).w.status = some 500 :=
  have h := ((C6_status_by_step demoEnv demoSecret []
    (demoRequest 2048 "123456" "photo.png" pngBytes)
    ⟨[("uploads", .file "x")]⟩).2.1 (by decide) (by decide)).2 (by decide)
  have h1 := (h.2
    { Filename := "photo.png", content := pngBytes, openErr := false, readErr := false }
    (by decide)).2 (by decide)
  have h2 := ((h1.2 (by decide)).2 (by decide)).1 (by decide)
  ⟨by decide, h2⟩

/-- C9 fails on the code: for the malformed tokens `abc`, `12345`, `1234567`
and `abcdef` the handler does call `ValidateTOTP`, which calls
`totp.Validate`; only the empty token is rejected without it. -/
theorem C9_malformed_token_is_validated :
    Call.Validate "abc" demoSecret ∈
      (uploadFileHandler demoEnv demoSecret (.fresh [])
        (demoRequest 2048 "abc" "photo.png" pngBytes) demoFS).calls ∧
    Call.Validate "12345" demoSecret ∈
      (uploadFileHandler demoEnv demoSecret (.fresh [])
        (demoRequest 2048 "12345" "photo.png" pngBytes) demoFS).calls ∧
    Call.Validate "1234567" demoSecret ∈
      (uploadFileHandler demoEnv demoSecret (.fresh [])
        (demoRequest 2048 "1234567" "photo.png" pngBytes) demoFS).calls ∧
    Call.Validate "abcdef" demoSecret ∈
      (uploadFileHandler demoEnv demoSecret (.fresh [])
        (demoRequest 2048 "abcdef" "photo.png" pngBytes) demoFS).calls := by
  decide

/-- C9, amended: an empty token is rejected as unauthorized without any call
of `ValidateTOTP`; for every token that is not empty, malformed or not, the
first call of the handler is `totp.Validate` on that token and the process
secret, and the request is rejected as unauthorized, with nothing else
called, when that call returns false. -/
theorem C9_only_empty_token_skips_check (env : Env) (totpSecret : String)
    (header : List (String × String)) (r : http.Request) (fs : os.FS) :
    (handlerToken r = "" →
      (uploadFileHandler env totpSecret (.fresh header) r fs).w.status = some 401 ∧
      ∀ c ∈ (uploadFileHandler env totpSecret (.fresh header) r fs).calls,
        c.isValidate = false) ∧
    (handlerToken r ≠ "" →
      (uploadFileHandler env totpSecret (.fresh header) r fs).calls.head? =
        some (.Validate (handlerToken r) totpSecret) ∧
      (ValidateTOTP env totpSecret (handlerToken r) = false →
        (uploadFileHandler env totpSecret (.fresh header) r fs).w.status = some 401 ∧
        (uploadFileHandler env totpSecret (.fresh header) r fs).calls =
          [.Validate (handlerToken r) totpSecret])) := by
  rw [uploadFileHandler_eq]
  refine ⟨?_, ?_⟩
  · intro h0
    simp [h0, writeError_fresh_status]
  · intro h0
    refine ⟨?_, ?_⟩
    · simp only [h0, if_false]
      split
      · rfl
      split
      · rfl
      split
      · rfl
      split
      · rfl
      split
      · rfl
      split
      · rfl
      split
      · rfl
      split
      · rfl
      · rfl
    · intro hv
      simp [h0, hv, writeError_fresh_status]

/-- C9, amended, at the empty token and at the token `abc`. -/
theorem C9_only_empty_token_skips_check_witness :
    handlerToken (demoRequest 2048 "" "photo.png" pngBytes) = "" ∧
    (∀ c ∈ (uploadFileHandler demoEnv demoSecret (.fresh [])
        (demoRequest 2048 "" "photo.png" pngBytes) demoFS).calls,
      c.isValidate = false) ∧
    handlerToken (demoRequest 2048 "abc" "photo.png" pngBytes) ≠ "" ∧
    (uploadFileHandler demoEnv demoSecret (.fresh [])
        (demoRequest 2048 "abc" "photo.png" pngBytes) demoFS).calls.head? =
      some (.Validate "abc" demoSecret) :=
  ⟨by decide,
    ((C9_only_empty_token_skips_check demoEnv demoSecret []
      (demoRequest 2048 "" "photo.png" pngBytes) demoFS).1 (by decide)).2,
    by decide,
    ((C9_only_empty_token_skips_check demoEnv demoSecret []
      (demoRequest 2048 "abc" "photo.png" pngBytes) demoFS).2 (by decide)).1⟩

theorem os.parent_uploads (n : String) (hn : ∀ d ∈ n.data, d ≠ '/') :
    os.parent ("uploads/" ++ n) = some UPLOAD_DIR := by
  have hdata : ("uploads/" ++ n).data = "uploads".data ++ '/' :: n.data := by
    simp
  have hmem : '/' ∈ ("uploads/" ++ n).data := by
    rw [hdata]; simp
  have hrev : (("uploads/" ++ n).data.reverse.dropWhile (· ≠ '/')) =
      '/' :: "uploads".data.reverse := by
    rw [hdata, List.reverse_append, List.reverse_cons, List.append_assoc,
      List.dropWhile_append_of_pos]
    · simp
    · intro d hd
      have := hn d (List.mem_reverse.mp hd)
      simpa using this
  unfold os.parent
  rw [if_pos hmem, hrev]
  rfl

/-- C4: every file the handler writes goes to `uploads/` followed by the
storage name `u ++ e`, where `u` is the generated identifier, the same for
every request, and `e = filepath.Ext` of the client's filename starts with a
dot and has no further dot and no separator. The name has no `/` and no
`..`, and the path `filepath.Join("uploads", name)` lies directly in the
upload directory. -/
theorem C4_storage_name (env : Env) (totpSecret : String)
    (header : List (String × String)) (r : http.Request) (fs : os.FS)
    (name : String) (data : Bytes)
    (huuid : uuid.WellFormed env.uuidNew = true)
    (hw : Call.WriteFile name data ∈
      (uploadFileHandler env totpSecret (.fresh header) r fs).calls) :
    ∃ fh tail, handlerFile r = some fh ∧ data = fh.content ∧
      (filepath.Ext fh.Filename).data = '.' :: tail ∧
      (∀ d ∈ tail, d ≠ '.' ∧ d ≠ '/') ∧
      name = filepath.Join [UPLOAD_DIR, env.uuidNew ++ filepath.Ext fh.Filename] ∧
      name = "uploads/" ++ (env.uuidNew ++ filepath.Ext fh.Filename) ∧
      (∀ d ∈ (env.uuidNew ++ filepath.Ext fh.Filename).data, d ≠ '/') ∧
      hasDotDot (env.uuidNew ++ filepath.Ext fh.Filename).data = false ∧
      os.parent name = some UPLOAD_DIR := by
  have key : ∀ fh : multipart.FileHeader, filepath.Ext fh.Filename ≠ "" →
      name = filepath.Join [UPLOAD_DIR, env.uuidNew ++ filepath.Ext fh.Filename] →
      ∃ tail, (filepath.Ext fh.Filename).data = '.' :: tail ∧
        (∀ d ∈ tail, d ≠ '.' ∧ d ≠ '/') ∧
        name = filepath.Join [UPLOAD_DIR, env.uuidNew ++ filepath.Ext fh.Filename] ∧
        name = "uploads/" ++ (env.uuidNew ++ filepath.Ext fh.Filename) ∧
        (∀ d ∈ (env.uuidNew ++ filepath.Ext fh.Filename).data, d ≠ '/') ∧
        hasDotDot (env.uuidNew ++ filepath.Ext fh.Filename).data = false ∧
        os.parent name = some UPLOAD_DIR := by
    intro fh he hname
    obtain ⟨c, t, tail, hdata, hc1, hc2, ht, htail, htl, hdd⟩ :=
      storageName_shape env.uuidNew fh.Filename huuid he
    have hpath := storagePath_eq env.uuidNew fh.Filename huuid he
    have hnos : ∀ d ∈ (env.uuidNew ++ filepath.Ext fh.Filename).data, d ≠ '/' := by
      rw [hdata]
      intro d hd
      rcases List.mem_cons.mp hd with hd | hd
      · rw [hd]; exact hc2
      · exact ht d hd
    refine ⟨tail, htail, htl, hname, ?_, hnos, hdd, ?_⟩
    · rw [hname, hpath]; rfl
    · rw [hname, hpath]
      exact os.parent_uploads _ hnos
  rw [uploadFileHandler_eq] at hw
  split at hw
  · simp at hw
  split at hw
  · simp at hw
  split at hw
  · simp at hw
  split at hw
  · simp at hw
  rename_i fh hfh
  split at hw
  · simp at hw
  split at hw
  · simp at hw
  split at hw
  · simp at hw
  rename_i he
  split at hw
  · simp at hw
  split at hw
  · simp at hw
    obtain ⟨tail, h⟩ := key fh he hw.1
    exact ⟨fh, tail, hfh, hw.2, h⟩
  · simp at hw
    obtain ⟨tail, h⟩ := key fh he hw.1
    exact ⟨fh, tail, hfh, hw.2, h⟩

/-- C4 at a filename that tries to leave the upload directory. -/
theorem C4_storage_name_witness :
    uuid.WellFormed demoEnv.uuidNew = true ∧
    Call.WriteFile "uploads/123e4567-e89b-42d3-a456-426614174000.png" pngBytes ∈
      (uploadFileHandler demoEnv demoSecret (.fresh [])
        (demoRequest 2048 "123456" "../../etc/x.tar.png" pngBytes) demoFS).calls ∧
    ∃ fh tail,
      handlerFile (demoRequest 2048 "123456" "../../etc/x.tar.png" pngBytes) = some fh ∧
      pngBytes = fh.content ∧
      (filepath.Ext fh.Filename).data = '.' :: tail ∧
      (∀ d ∈ tail, d ≠ '.' ∧ d ≠ '/') ∧
      "uploads/123e4567-e89b-42d3-a456-426614174000.png" =
        filepath.Join [UPLOAD_DIR, demoEnv.uuidNew ++ filepath.Ext fh.Filename] ∧
      "uploads/123e4567-e89b-42d3-a456-426614174000.png" =
        "uploads/" ++ (demoEnv.uuidNew ++ filepath.Ext fh.Filename) ∧
      (∀ d ∈ (demoEnv.uuidNew ++ filepath.Ext fh.Filename).data, d ≠ '/') ∧
      hasDotDot (demoEnv.uuidNew ++ filepath.Ext fh.Filename).data = false ∧
      os.parent "uploads/123e4567-e89b-42d3-a456-426614174000.png" = some UPLOAD_DIR :=
  ⟨by decide, by decide,
    C4_storage_name demoEnv demoSecret []
      (demoRequest 2048 "123456" "../../etc/x.tar.png" pngBytes) demoFS
      "uploads/123e4567-e89b-42d3-a456-426614174000.png" pngBytes (by decide) (by decide)⟩

/-- Once the first parse of an incoming request succeeds, the size of its
body plays no part in what the handler does: `FormValue` reads the whole body
before `http.MaxBytesReader` wraps it, and the later `ParseMultipartForm`
returns at once because `r.MultipartForm` is set. -/
theorem uploadFileHandler_size_irrelevant (env : Env) (totpSecret : String)
    (w : http.ResponseWriter) (fs : os.FS) (query : Values) (form : multipart.Form)
    (n m : Nat) :
    uploadFileHandler env totpSecret w (http.Request.incoming query n (some form)) fs =
      uploadFileHandler env totpSecret w (http.Request.incoming query m (some form)) fs := by
  rfl

/-- C5 fails on the code: a request with the current code and a PNG part
whose body is one byte over `MAX_UPLOAD_SIZE` is not rejected; the bytes are
sniffed, the answer is 200 and the file is written under `uploads`. -/
theorem C5_oversize_accepted :
    MAX_UPLOAD_SIZE = 10485760 ∧
    (demoRequest (MAX_UPLOAD_SIZE + 1) "123456" "photo.png" pngBytes).Body.size =
      MAX_UPLOAD_SIZE + 1 ∧
    (demoRequest (MAX_UPLOAD_SIZE + 1) "123456" "photo.png" pngBytes).Body.limit = none ∧
    (uploadFileHandler demoEnv demoSecret (.fresh [])
        (demoRequest (MAX_UPLOAD_SIZE + 1) "123456" "photo.png" pngBytes) demoFS).w.status =
      some 200 ∧
    (uploadFileHandler demoEnv demoSecret (.fresh [])
        (demoRequest (MAX_UPLOAD_SIZE + 1) "123456" "photo.png" pngBytes) demoFS).calls =
      [.Validate "123456" demoSecret, .DetectContentType pngBytes, .uuidNew,
       .MkdirAll "uploads",
       .WriteFile "uploads/123e4567-e89b-42d3-a456-426614174000.png" pngBytes] ∧
    (uploadFileHandler demoEnv demoSecret (.fresh [])
        (demoRequest (MAX_UPLOAD_SIZE + 1) "123456" "photo.png" pngBytes)
        demoFS).fs.lookup "uploads/123e4567-e89b-42d3-a456-426614174000.png" =
      some (.file pngBytes) := by
  decide

theorem InitializeTOTPSecret_existing (env : Env) (TOTP_SECRET_FILE : String)
    (s : String) (p : Process) (h : p.fs.lookup TOTP_SECRET_FILE = some (.file s)) :
    InitializeTOTPSecret env TOTP_SECRET_FILE p =
      (.ok { totpSecret := s, fs := p.fs },
        [.Stat TOTP_SECRET_FILE, .ReadFile TOTP_SECRET_FILE,
         .Println "Loaded TOTP secret from file."]) := by
  simp [InitializeTOTPSecret, os.Stat, os.IsNotExist, LoadTOTPSecret, os.ReadFile, h]

theorem InitializeTOTPSecret_record (env : Env) (TOTP_SECRET_FILE : String)
    (p0 p1 : Process) (calls0 : List Call)
    (h : InitializeTOTPSecret env TOTP_SECRET_FILE p0 = (.ok p1, calls0)) :
    p1.fs.lookup TOTP_SECRET_FILE = some (.file p1.totpSecret) := by
  unfold InitializeTOTPSecret at h
  split at h
  · split at h
    · simp at h
    · rename_i secret _
      split at h
      · simp at h
      · rename_i fs hsave
        simp only [Prod.mk.injEq, Except.ok.injEq] at h
        rw [← h.1]
        exact os.WriteFile_lookup _ _ _ _ hsave
  · split at h
    · simp at h
    · rename_i secret hload
      simp only [Prod.mk.injEq, Except.ok.injEq] at h
      rw [← h.1]
      unfold LoadTOTPSecret os.ReadFile at hload
      split at hload
      · simp at hload
      · rename_i data hread
        split at hread
        · simp only [Option.some.injEq] at hread hload
          subst hread
          subst hload
          assumption
        · simp at hread

/-- C8: a successful `SaveTOTPSecret(s)` is read back by `LoadTOTPSecret` as
exactly `s`, without error. `InitializeTOTPSecret` on a file tree whose
secret record holds `s` sets the process secret to `s`, calls neither
`totp.Generate` nor a write, and leaves the file tree as it was. And after a
first start that succeeded, a restart on the file tree it left, with the
process secret lost, ends with the same secret and the same file tree, so
`ValidateTOTP` answers alike before and after the restart. -/
theorem C8_secret_round_trip (env : Env) (TOTP_SECRET_FILE : String) (s : String) :
    (∀ fs fs1, SaveTOTPSecret TOTP_SECRET_FILE fs s = some fs1 →
      LoadTOTPSecret TOTP_SECRET_FILE fs1 = some s) ∧
    (∀ p : Process, p.fs.lookup TOTP_SECRET_FILE = some (.file s) →
      (InitializeTOTPSecret env TOTP_SECRET_FILE p).1 =
        .ok { totpSecret := s, fs := p.fs } ∧
      Call.Generate ∉ (InitializeTOTPSecret env TOTP_SECRET_FILE p).2 ∧
      ∀ c ∈ (InitializeTOTPSecret env TOTP_SECRET_FILE p).2, c.isWriteFile = false) ∧
    (∀ (p0 p1 : Process) (calls0 : List Call),
      InitializeTOTPSecret env TOTP_SECRET_FILE p0 = (.ok p1, calls0) →
      ∀ (env2 : Env) (p2 : Process), p2.fs = p1.fs →
        ∃ p3, (InitializeTOTPSecret env2 TOTP_SECRET_FILE p2).1 = .ok p3 ∧
          p3.totpSecret = p1.totpSecret ∧ p3.fs = p1.fs ∧
          Call.Generate ∉ (InitializeTOTPSecret env2 TOTP_SECRET_FILE p2).2 ∧
          ∀ (env3 : Env) (token : String),
            ValidateTOTP env3 p3.totpSecret token =
              ValidateTOTP env3 p1.totpSecret token) := by
  refine ⟨?_, ?_, ?_⟩
  · intro fs fs1 hsave
    have hl := os.WriteFile_lookup fs fs1 TOTP_SECRET_FILE s hsave
    simp [LoadTOTPSecret, os.ReadFile, hl]
  · intro p hp
    rw [InitializeTOTPSecret_existing env TOTP_SECRET_FILE s p hp]
    simp [Call.isWriteFile]
  · intro p0 p1 calls0 h0 env2 p2 hfs
    have hrec := InitializeTOTPSecret_record env TOTP_SECRET_FILE p0 p1 calls0 h0
    have hrec2 : p2.fs.lookup TOTP_SECRET_FILE = some (.file p1.totpSecret) := by
      rw [hfs]; exact hrec
    refine ⟨{ totpSecret := p1.totpSecret, fs := p2.fs }, ?_, rfl, hfs, ?_, ?_⟩
    · rw [InitializeTOTPSecret_existing env2 TOTP_SECRET_FILE p1.totpSecret p2 hrec2]
    · rw [InitializeTOTPSecret_existing env2 TOTP_SECRET_FILE p1.totpSecret p2 hrec2]
      simp
    · intro env3 token
      rfl

/-- C8 for the two entry points: the first start in an empty file tree
stores the generated secret under `totp_secret.txt`, and a record under
`secrets/totp_secret` is loaded as it is. -/
theorem C8_secret_round_trip_witness :
    SaveTOTPSecret TOTP_SECRET_FILE_main ⟨[]⟩ demoSecret =
      some ⟨[("totp_secret.txt", .file demoSecret)]⟩ ∧
    LoadTOTPSecret TOTP_SECRET_FILE_main ⟨[("totp_secret.txt", .file demoSecret)]⟩ =
      some demoSecret ∧
    (InitializeTOTPSecret demoEnv TOTP_SECRET_FILE_src
        { totpSecret := "",
          fs := ⟨[("secrets/totp_secret", .file "ABCDEFGH"), ("secrets", .dir)]⟩ }).1 =
      .ok { totpSecret := "ABCDEFGH",
            fs := ⟨[("secrets/totp_secret", .file "ABCDEFGH"), ("secrets", .dir)]⟩ } :=
  ⟨by decide,
    (C8_secret_round_trip demoEnv TOTP_SECRET_FILE_main demoSecret).1 ⟨[]⟩
      ⟨[("totp_secret.txt", .file demoSecret)]⟩ (by decide),
    ((C8_secret_round_trip demoEnv TOTP_SECRET_FILE_src "ABCDEFGH").2.1
      { totpSecret := "",
        fs := ⟨[("secrets/totp_secret", .file "ABCDEFGH"), ("secrets", .dir)]⟩ }
      (by decide)).1⟩

end ImageUploader
